import Mathlib

/-!
# Verification of the ganzin_backend gaze-processing engine

A shallow embedding of the gaze-processing code of the repository:

* `backend/models/aoi_element.py`   — AOI geometry and the prioritized hit index
* `backend/models/gaze_point.py`    — calibration transform application
* `backend/models/achievement.py`   — achievement progress counters
* `backend/models/hit_log.py`       — AOI hit records
* `backend/manager/gaze_manager.py` — live session state, calibration computation
* `backend_test/processing_service.py` — I-DT fixation/saccade detection
* `backend_test/adaptation_service.py` — feedback rule engine

Python floats are modelled as exact rationals (`ℚ`).  The numeric square
root (`math.sqrt` / `** 0.5`), which has no exact rational counterpart, is
passed in as an explicit parameter `sq : ℚ → ℚ`; theorems state the facts
they need about it (for the claims below only `sq 0 = 0` matters, which
holds for every faithful square root).  Wall-clock reads
(`time.time()` / `datetime.utcnow()`) are passed in as explicit `now`
parameters.  Python dictionaries with `.get` defaults are modelled as
structures of `Option` fields with the default applied at the use site.
-/

namespace GanzinBackend

/-- Maximum of a nonempty list of rationals, mirroring Python `max(xs)`.
The `[]` case is never reached by the embedded code (all call sites guard
nonemptiness); it returns 0 to keep the function total. -/
def listMax : List ℚ → ℚ
  | [] => 0
  | [a] => a
  | a :: b :: t => max a (listMax (b :: t))

/-- Minimum of a nonempty list of rationals, mirroring Python `min(xs)`. -/
def listMin : List ℚ → ℚ
  | [] => 0
  | [a] => a
  | a :: b :: t => min a (listMin (b :: t))

/-- Python slice `xs[-n:]`: the last `n` elements. -/
def lastN (l : List α) (n : ℕ) : List α := l.drop (l.length - n)

/-- Append to a bounded buffer: Python
`xs.append(v); if len(xs) > bound: xs.pop(0)`. -/
def pushBounded (l : List α) (v : α) (bound : ℕ) : List α :=
  let l' := l ++ [v]
  if bound < l'.length then l'.drop 1 else l'

/-- Python dict insertion `d[k] = v` on an insertion-ordered association
list: overwriting an existing key keeps its position (dict keys are
unique, so replacing the first binding is replacing the binding), a new
key is appended at the end. -/
def dictInsert : List (String × α) → String → α → List (String × α)
  | [], k, v => [(k, v)]
  | p :: rest, k, v => if p.1 = k then (k, v) :: rest else p :: dictInsert rest k v

/-- Python dict lookup `d.get(k)`. -/
def dictGet (kvs : List (String × α)) (k : String) : Option α :=
  (kvs.find? (fun p => p.1 = k)).map (fun p => p.2)

/-- `needle` is a prefix of `hay` (character lists). -/
def charsStartWith : List Char → List Char → Bool
  | [], _ => true
  | _ :: _, [] => false
  | a :: as, b :: bs => a = b && charsStartWith as bs

/-- Python substring test `needle in hay` on character lists. -/
def hasSubstring (needle : List Char) : List Char → Bool
  | [] => needle.isEmpty
  | c :: rest => charsStartWith needle (c :: rest) || hasSubstring needle rest

/-- A concrete computable square root stand-in used to instantiate
witnesses and counterexamples.  It agrees with the real square root on 0
(`ratSqrt 0 = 0`) and on perfect squares, which is all the concrete
evaluations below rely on. -/
def ratSqrt (q : ℚ) : ℚ := (Nat.sqrt q.num.toNat : ℚ) / (Nat.sqrt q.den : ℚ)

/-! ## AOI model — `backend/models/aoi_element.py` -/

/-- `AOIElement` dataclass.  `created_at` (a wall-clock default) and
`lesson_context` are carried as optional metadata. -/
structure AOIElement where
  id : String
  x : ℚ
  y : ℚ
  width : ℚ
  height : ℚ
  text : String
  tag : String := "span"
  interactive : Bool := true
  vocabulary_word : Bool := false
  difficulty_level : String := "medium"
  created_at : Option ℚ := none
  lesson_context : Option String := none
  deriving DecidableEq, Repr

namespace AOIElement

/-- `AOIElement.contains_point`: Python
`self.x <= x <= self.x + self.width and self.y <= y <= self.y + self.height`
(chained comparisons, both ends inclusive). -/
def contains_point (a : AOIElement) (px py : ℚ) : Bool :=
  decide (a.x ≤ px ∧ px ≤ a.x + a.width ∧ a.y ≤ py ∧ py ≤ a.y + a.height)

/-- `AOIElement.get_center_point`. -/
def get_center_point (a : AOIElement) : ℚ × ℚ :=
  (a.x + a.width / 2, a.y + a.height / 2)

end AOIElement

/-- The spec's description of point-in-rectangle containment: half-open on
the upper edges (`x_min ≤ x < x_max`, `y_min ≤ y < y_max`).  Stated from
the spec's words for comparison with the code's `contains_point`. -/
def containsPointSpecHalfOpen (a : AOIElement) (px py : ℚ) : Prop :=
  a.x ≤ px ∧ px < a.x + a.width ∧ a.y ≤ py ∧ py < a.y + a.height

/-- `AOICollection`: an insertion-ordered id map plus the two kind lists
that `find_hit` iterates. -/
structure AOICollection where
  elements : List (String × AOIElement) := []
  vocabulary_words : List AOIElement := []
  content_areas : List AOIElement := []
  deriving Repr

namespace AOICollection

/-- `AOICollection.add_element`: `self.elements[aoi.id] = aoi` then append
to the matching kind list (unconditionally — a replaced element is not
removed from the kind lists). -/
def add_element (c : AOICollection) (aoi : AOIElement) : AOICollection :=
  { elements := dictInsert c.elements aoi.id aoi
    vocabulary_words :=
      if aoi.vocabulary_word then c.vocabulary_words ++ [aoi] else c.vocabulary_words
    content_areas :=
      if aoi.vocabulary_word then c.content_areas else c.content_areas ++ [aoi] }

/-- Lookup by id in the `elements` dict. -/
def lookup (c : AOICollection) (aoi_id : String) : Option AOIElement :=
  dictGet c.elements aoi_id

/-- `AOICollection.find_hit`: vocabulary words first, then content areas,
first match in list order wins. -/
def find_hit (c : AOICollection) (x y : ℚ) : Option AOIElement :=
  match c.vocabulary_words.find? (fun a => a.contains_point x y) with
  | some a => some a
  | none => c.content_areas.find? (fun a => a.contains_point x y)

end AOICollection

/-- Well-formedness of an `AOICollection` as maintained by `add_element`
starting from the empty collection: every AOI stored in the id map with
`vocabulary_word = true` also appears in the `vocabulary_words` list, and
that list only holds vocabulary AOIs. -/
def AOICollection.Wf (c : AOICollection) : Prop :=
  (∀ p ∈ c.elements, (p.2.vocabulary_word = true) → p.2 ∈ c.vocabulary_words) ∧
  (∀ a ∈ c.vocabulary_words, a.vocabulary_word = true)

/-! ## I-DT fixation detection — `backend_test/processing_service.py` -/

/-- `GazeSample` dataclass of `processing_service.py` (named `PGazeSample`
here to distinguish it from the manager's `GazePoint`).  Timestamps are
integer milliseconds. -/
structure PGazeSample where
  timestamp : ℤ
  x : ℚ
  y : ℚ
  confidence : ℚ
  session_id : String
  deriving DecidableEq, Repr

/-- `GazeEvent` dataclass (`fixation` or `saccade`). -/
structure GazeEvent where
  event_type : String
  start_ts : ℤ
  end_ts : ℤ
  duration_ms : ℤ
  gaze_x : ℚ
  gaze_y : ℚ
  confidence : ℚ
  aoi_id : Option String := none
  deriving DecidableEq, Repr

namespace FixationDetector

/-- `FixationDetector._calculate_dispersion`: the per-axis ranges combined
through the numeric square root `sq` and divided by the hard-coded
`pixels_per_degree = 30`. -/
def calculate_dispersion (sq : ℚ → ℚ) (samples : List PGazeSample) : ℚ :=
  if samples.length < 2 then 0
  else
    let x_range := listMax (samples.map (fun s => s.x)) - listMin (samples.map (fun s => s.x))
    let y_range := listMax (samples.map (fun s => s.y)) - listMin (samples.map (fun s => s.y))
    sq (x_range ^ 2 + y_range ^ 2) / 30

/-- `FixationDetector._create_fixation_event`: centroid and mean
confidence over the window, spanning first to last sample. -/
def create_fixation_event : List PGazeSample → Option GazeEvent
  | [] => none
  | s :: rest =>
    let samples := s :: rest
    let last := rest.getLastD s
    some
      { event_type := "fixation"
        start_ts := s.timestamp
        end_ts := last.timestamp
        duration_ms := last.timestamp - s.timestamp
        gaze_x := (samples.map (fun p => p.x)).sum / samples.length
        gaze_y := (samples.map (fun p => p.y)).sum / samples.length
        confidence := (samples.map (fun p => p.confidence)).sum / samples.length }

/-- `FixationDetector._create_saccade_event`: start/end midpoint and mean
confidence; `none` on fewer than two samples. -/
def create_saccade_event : List PGazeSample → Option GazeEvent
  | [] => none
  | [_] => none
  | s :: r :: rest =>
    let samples := s :: r :: rest
    let last := (r :: rest).getLastD s
    some
      { event_type := "saccade"
        start_ts := s.timestamp
        end_ts := last.timestamp
        duration_ms := last.timestamp - s.timestamp
        gaze_x := (s.x + last.x) / 2
        gaze_y := (s.y + last.y) / 2
        confidence := (samples.map (fun p => p.confidence)).sum / samples.length }

/-- The inner loop of `_detect_events`: starting at index `i`, collect
samples while their timestamp is within `window_ms` of the sample at `i`,
stopping at the first sample outside the window. -/
def window_samples (window_ms : ℤ) (samples : List PGazeSample) (i : ℕ) : List PGazeSample :=
  match samples.drop i with
  | [] => []
  | s0 :: rest => (s0 :: rest).takeWhile (fun s => decide (s.timestamp - s0.timestamp ≤ window_ms))

/-- Event candidate for the window starting at index `i`: with at least 3
samples in the window, a fixation when the dispersion is within the
threshold and a saccade otherwise. -/
def window_event (sq : ℚ → ℚ) (window_ms : ℤ) (threshold : ℚ)
    (samples : List PGazeSample) (i : ℕ) : Option GazeEvent :=
  let w := window_samples window_ms samples i
  if 3 ≤ w.length then
    if calculate_dispersion sq w ≤ threshold then create_fixation_event w
    else create_saccade_event w
  else none

/-- `FixationDetector._detect_events`: nothing below 3 buffered samples,
otherwise one candidate per window start index `i < len(samples) - 2`. -/
def detect_events (sq : ℚ → ℚ) (window_ms : ℤ) (threshold : ℚ)
    (samples : List PGazeSample) : List GazeEvent :=
  if samples.length < 3 then []
  else (List.range (samples.length - 2)).filterMap (window_event sq window_ms threshold samples)

end FixationDetector

/-- `FixationDetector` state: parameters (defaults `window_ms = 100`,
`dispersion_threshold = 1.0` degrees) and the sample buffer
(`deque(maxlen=50)`). -/
structure FixationDetector where
  window_ms : ℤ := 100
  dispersion_threshold : ℚ := 1
  sample_buffer : List PGazeSample := []
  deriving Repr

/-- `FixationDetector.add_sample`: append to the bounded deque (dropping
the oldest sample beyond 50) and rerun `_detect_events` over the whole
buffer. -/
def FixationDetector.add_sample (sq : ℚ → ℚ) (d : FixationDetector) (s : PGazeSample) :
    FixationDetector × List GazeEvent :=
  let buf := d.sample_buffer ++ [s]
  let buf := if 50 < buf.length then buf.drop 1 else buf
  ({ d with sample_buffer := buf },
   FixationDetector.detect_events sq d.window_ms d.dispersion_threshold buf)

/-! ## Feedback rule engine — `backend_test/adaptation_service.py` -/

/-- A JSON payload value (the rule payloads carry strings and booleans). -/
inductive PayloadValue where
  | str (s : String)
  | bool (b : Bool)
  deriving DecidableEq, Repr

/-- `FeedbackCommand` dataclass. -/
structure FeedbackCommand where
  type : String
  payload : List (String × PayloadValue)
  timestamp : ℤ
  session_id : String
  deriving DecidableEq, Repr

/-- An event dict as consumed by `AdaptationEngine.process_event`; missing
keys read through `.get` are `Option` fields (`duration_ms` defaults to 0
at its use sites, so it is carried with that default applied). -/
structure EventData where
  session_id : Option String := none
  event_type : Option String := none
  duration_ms : ℤ := 0
  aoi_id : Option String := none
  deriving DecidableEq, Repr

/-- A rule condition dict; absent keys skip the corresponding check. -/
structure RuleCondition where
  event_type : Option String := none
  min_duration_ms : Option ℤ := none
  aoi_type : Option String := none
  deriving DecidableEq, Repr

/-- A rule action dict. -/
structure RuleAction where
  type : String
  payload : List (String × PayloadValue)
  deriving DecidableEq, Repr

/-- `AdaptationRule`. -/
structure AdaptationRule where
  rule_id : String
  condition : RuleCondition
  action : RuleAction
  deriving DecidableEq, Repr

namespace AdaptationRule

/-- `AdaptationRule.evaluate`: event-type equality, minimum duration, and
the `aoi_type` check which the source leaves as a no-op (`pass`). -/
def evaluate (r : AdaptationRule) (e : EventData) : Bool :=
  (match r.condition.event_type with
   | none => true
   | some t => e.event_type = some t) &&
  (match r.condition.min_duration_ms with
   | none => true
   | some m => decide (m ≤ e.duration_ms))

/-- `AdaptationRule.create_command`: the action's type and payload stamped
with the current wall-clock time and session. -/
def create_command (r : AdaptationRule) (session_id : String) (now : ℤ) : FeedbackCommand :=
  { type := r.action.type, payload := r.action.payload, timestamp := now,
    session_id := session_id }

end AdaptationRule

/-- The three default rules loaded by `_load_default_rules`, in table
order: vocabulary assistance (≥1500 ms), grammar assistance (≥2000 ms),
general hint (≥3000 ms). -/
def defaultRules : List AdaptationRule :=
  [ { rule_id := "vocabulary_assistance"
      condition := { event_type := some "fixation", min_duration_ms := some 1500,
                     aoi_type := some "word" }
      action := { type := "vocabularyCard"
                  payload := [("message", .str "Unknown word detected"),
                              ("show_definition", .bool true),
                              ("show_pronunciation", .bool true)] } }
  , { rule_id := "grammar_assistance"
      condition := { event_type := some "fixation", min_duration_ms := some 2000,
                     aoi_type := some "sentence" }
      action := { type := "grammarPopup"
                  payload := [("message", .str "Complex sentence detected"),
                              ("show_grammar_help", .bool true),
                              ("show_translation", .bool true)] } }
  , { rule_id := "general_hint"
      condition := { event_type := some "fixation", min_duration_ms := some 3000 }
      action := { type := "showHint"
                  payload := [("message", .str "Need help with this section?"),
                              ("hint_type", .str "reading_assistance")] } } ]

/-- An entry of a session's `fixation_history`. -/
structure FixRecord where
  timestamp : ℤ
  duration_ms : ℤ
  aoi_id : Option String
  deriving DecidableEq, Repr

/-- Per-session state created by `register_websocket`. -/
structure SessionState where
  last_feedback_time : ℤ := 0
  feedback_count : ℕ := 0
  fixation_history : List FixRecord := []
  deriving DecidableEq, Repr

/-- `AdaptationEngine` state: the rule table and the registered session
states (WebSocket sinks are external I/O and carry no further state). -/
structure AdaptationEngine where
  rules : List AdaptationRule := defaultRules
  session_states : List (String × SessionState) := []
  deriving Repr

namespace AdaptationEngine

/-- `AdaptationEngine._is_difficult_word`: membership of one of the four
hard-coded words in the lowercased AOI id (`str.lower()` modelled
characterwise). -/
def is_difficult_word (aoi_id : String) : Bool :=
  ["sophisticated", "comprehension", "articulate", "endeavor"].any
    (fun w => hasSubstring w.toList (aoi_id.toList.map Char.toLower))

/-- `AdaptationEngine._is_complex_sentence`: duration above 2000 ms. -/
def is_complex_sentence (e : EventData) : Bool :=
  decide (2000 < e.duration_ms)

/-- The command (if any) a single rule contributes for an event inside the
rule-evaluation loop of `process_event`. -/
def rule_command (e : EventData) (session_id : String) (now : ℤ)
    (r : AdaptationRule) : Option FeedbackCommand :=
  if r.evaluate e then
    if r.rule_id = "vocabulary_assistance" then
      match e.aoi_id with
      | some aid =>
        if aid ≠ "" ∧ is_difficult_word aid then
          some { r.create_command session_id now with
                 payload := dictInsert (r.create_command session_id now).payload
                   "word_id" (.str aid) }
        else none
      | none => none
    else if r.rule_id = "grammar_assistance" then
      if is_complex_sentence e then some (r.create_command session_id now) else none
    else some (r.create_command session_id now)
  else none

/-- The per-command session-state update performed inside the send loop
of `process_event` (`last_feedback_time := now`, `feedback_count += 1`,
for registered sessions only). -/
def feedback_state_update (sid : String) (now : ℤ)
    (st : List (String × SessionState)) (_ : FeedbackCommand) :
    List (String × SessionState) :=
  match dictGet st sid with
  | some s => dictInsert st sid
      { s with last_feedback_time := now, feedback_count := s.feedback_count + 1 }
  | none => st

/-- `AdaptationEngine.process_event`.  `now` is the wall clock read
(`datetime.utcnow()` in milliseconds).  Returns the emitted commands and
the updated engine state.  The send loop's per-command state update is
folded over the emitted commands via `feedback_state_update`. -/
def process_event (eng : AdaptationEngine) (e : EventData) (now : ℤ) :
    List FeedbackCommand × AdaptationEngine :=
  match e.session_id with
  | none => ([], eng)
  | some sid =>
    if sid = "" then ([], eng)
    else
      let step2 := fun (eng1 : AdaptationEngine) =>
        let commands := eng1.rules.filterMap (rule_command e sid now)
        let states := commands.foldl (feedback_state_update sid now) eng1.session_states
        (commands, { eng1 with session_states := states })
      match dictGet eng.session_states sid with
      | some st =>
        if now - st.last_feedback_time < 5000 then ([], eng)
        else
          let hist := lastN (st.fixation_history ++ [⟨now, e.duration_ms, e.aoi_id⟩]) 10
          let st1 :=
            if e.event_type = some "fixation" then { st with fixation_history := hist }
            else st
          step2 { eng with session_states := dictInsert eng.session_states sid st1 }
      | none => step2 eng

end AdaptationEngine

/-! ## Gaze points and calibration application — `backend/models/gaze_point.py` -/

/-- Mock scene-camera intrinsics as bundled by
`get_scene_camera_intrinsics` (only carried through the transform dict;
no claim inspects its numeric content beyond identity). -/
structure CameraIntrinsics where
  fx : ℚ := 800
  fy : ℚ := 800
  cx : ℚ := 400
  cy : ℚ := 300
  deriving DecidableEq, Repr

/-- The calibration transform dict.  Every key read through `.get` with a
default is an `Option` field; the default is applied at the use site,
mirroring the Python `dict.get(key, default)` calls. -/
structure CalibTransform where
  calibrated : Option Bool := none
  method : Option String := none
  homography_matrix : Option (List (List ℚ)) := none
  camera_intrinsics : Option CameraIntrinsics := none
  scale_x : Option ℚ := none
  scale_y : Option ℚ := none
  offset_x : Option ℚ := none
  offset_y : Option ℚ := none
  screen_width : Option ℚ := none
  screen_height : Option ℚ := none
  accuracy_px : Option ℚ := none
  points_used : Option ℕ := none
  timestamp : Option ℚ := none
  deriving DecidableEq, Repr

/-- Matrix entry access `H[i][j]` on the 3×3 homography stored as nested
lists (out-of-range reads never occur on matrices the code builds). -/
def hmat (H : List (List ℚ)) (i j : ℕ) : ℚ := ((H.getD i []).getD j 0)

/-- `GazePoint` dataclass. -/
structure GazePoint where
  timestamp : ℚ
  gaze_valid : ℤ
  gaze_pos_x : ℚ
  gaze_pos_y : ℚ
  combined_3d_gaze_valid : ℤ
  combined_3d_gaze_pos_x : ℚ
  combined_3d_gaze_pos_y : ℚ
  combined_3d_gaze_pos_z : ℚ
  combined_3d_gaze_dir_x : ℚ
  combined_3d_gaze_dir_y : ℚ
  combined_3d_gaze_dir_z : ℚ
  left_pupil_size : ℚ
  right_pupil_size : ℚ
  confidence : ℚ := 1
  calibrated_x : Option ℚ := none
  calibrated_y : Option ℚ := none
  deriving DecidableEq, Repr

/-- Python `a or b` on an optional float: `None` and `0.0` are falsy. -/
def orQ (a : Option ℚ) (b : ℚ) : ℚ :=
  match a with
  | some v => if v = 0 then b else v
  | none => b

namespace GazePoint

/-- `GazePoint._apply_linear_transform`: the raw coordinates scaled and
offset with defaults `scale = 1`, `offset = 0`. -/
def linear_coords (t : CalibTransform) (g : GazePoint) : ℚ × ℚ :=
  (g.gaze_pos_x * t.scale_x.getD 1 + t.offset_x.getD 0,
   g.gaze_pos_y * t.scale_y.getD 1 + t.offset_y.getD 0)

/-- `GazePoint._apply_homography_transform`: homogeneous transform with
perspective division, falling back to the linear transform when the
homogeneous divisor is within `1e-8` of zero. -/
def homography_coords (t : CalibTransform) (H : List (List ℚ)) (g : GazePoint) : ℚ × ℚ :=
  let w := hmat H 2 0 * g.gaze_pos_x + hmat H 2 1 * g.gaze_pos_y + hmat H 2 2
  if 1 / 100000000 < |w| then
    ((hmat H 0 0 * g.gaze_pos_x + hmat H 0 1 * g.gaze_pos_y + hmat H 0 2) / w,
     (hmat H 1 0 * g.gaze_pos_x + hmat H 1 1 * g.gaze_pos_y + hmat H 1 2) / w)
  else linear_coords t g

/-- `GazePoint.apply_calibration_transform`: raw passthrough when the
transform is not calibrated; otherwise homography (when selected and a
matrix is present) or linear, then clamping to the configured screen
bounds (defaults 1920×1080). -/
def apply_calibration_transform (t : CalibTransform) (g : GazePoint) : GazePoint :=
  if t.calibrated.getD false = false then
    { g with calibrated_x := some g.gaze_pos_x, calibrated_y := some g.gaze_pos_y }
  else
    let c :=
      match t.method, t.homography_matrix with
      | some "homography", some H => homography_coords t H g
      | _, _ => linear_coords t g
    let max_x := t.screen_width.getD 1920
    let max_y := t.screen_height.getD 1080
    { g with calibrated_x := some (max 0 (min max_x c.1)),
             calibrated_y := some (max 0 (min max_y c.2)) }

/-- `GazePoint.is_valid`. -/
def is_valid (g : GazePoint) : Bool :=
  decide (g.gaze_valid = 1 ∧ 1 / 2 ≤ g.confidence ∧ 0 ≤ g.gaze_pos_x ∧ 0 ≤ g.gaze_pos_y)

end GazePoint

/-! ## Achievements — `backend/models/achievement.py` -/

/-- `Achievement` dataclass. -/
structure Achievement where
  id : String
  title : String
  description : String
  category : String
  target_value : ℚ
  current_value : ℚ := 0
  unlocked : Bool := false
  unlocked_at : Option ℚ := none
  icon : String := "trophy"
  points : ℤ := 10
  created_at : Option ℚ := none
  deriving DecidableEq, Repr

/-- `Achievement.update_progress`: overwrite `current_value` with the new
value, then unlock (returning `true` exactly then) when not yet unlocked
and the target is reached.  `now` is the `time.time()` read stored in
`unlocked_at`. -/
def Achievement.update_progress (a : Achievement) (new_value : ℚ) (now : ℚ) :
    Bool × Achievement :=
  let a1 := { a with current_value := new_value }
  if a1.unlocked = false ∧ a1.target_value ≤ a1.current_value then
    (true, { a1 with unlocked := true, unlocked_at := some now })
  else
    (false, a1)

/-- A sequence of `update_progress` calls on one achievement, returning
the final state and how many calls signalled an unlock (returned
`true`). -/
def Achievement.run_updates (a : Achievement) : List (ℚ × ℚ) → Achievement × ℕ
  | [] => (a, 0)
  | (v, now) :: rest =>
    let r := a.update_progress v now
    let r2 := r.2.run_updates rest
    (r2.1, (if r.1 then 1 else 0) + r2.2)

/-- `AchievementManager` state: the id-keyed achievement dict and the
`recent_unlocks` list. -/
structure AchievementManager where
  session_id : Option String := none
  achievements : List (String × Achievement) := []
  recent_unlocks : List Achievement := []
  deriving Repr

/-- The inner loop body shared by the `update_*_progress` methods: update
the achievement stored under `aid` (if present) with the new value; on an
unlock signal record it in `recent_unlocks` and the newly-unlocked
accumulator. -/
def AchievementManager.update_one (value now : ℚ)
    (acc : AchievementManager × List Achievement) (aid : String) :
    AchievementManager × List Achievement :=
  let (mgr, newly) := acc
  match dictGet mgr.achievements aid with
  | none => (mgr, newly)
  | some a =>
    let (signal, a') := a.update_progress value now
    let mgr' := { mgr with achievements := dictInsert mgr.achievements aid a' }
    if signal then
      ({ mgr' with recent_unlocks := mgr'.recent_unlocks ++ [a'] }, newly ++ [a'])
    else (mgr', newly)

/-- `AchievementManager.update_vocabulary_progress` over the four
vocabulary achievement ids. -/
def AchievementManager.update_vocabulary_progress (mgr : AchievementManager)
    (vocabulary_count : ℚ) (now : ℚ) : AchievementManager × List Achievement :=
  ["first_word", "vocab_explorer", "vocab_master", "vocab_genius"].foldl
    (AchievementManager.update_one vocabulary_count now) (mgr, [])

/-- `AchievementManager.update_focus_progress` over the three focus
achievement ids. -/
def AchievementManager.update_focus_progress (mgr : AchievementManager)
    (session_duration_seconds : ℚ) (now : ℚ) : AchievementManager × List Achievement :=
  ["focused_reader", "deep_focus", "laser_focus"].foldl
    (AchievementManager.update_one session_duration_seconds now) (mgr, [])

/-! ## Calibration computation — `backend/manager/gaze_manager.py` -/

/-- A captured calibration sample
(`capture_calibration_point`'s dict). -/
structure CalibrationSamplePoint where
  point_index : ℤ
  screen_x : ℚ
  screen_y : ℚ
  gaze_x : ℚ
  gaze_y : ℚ
  confidence : ℚ
  timestamp : ℚ
  deriving DecidableEq, Repr

/-- The calibration-relevant slice of `GazeDataManager` state. -/
structure CalibState where
  calibration_points : List CalibrationSamplePoint := []
  calibration_transform : CalibTransform := {}
  is_calibrating : Bool := false
  deriving DecidableEq, Repr

/-- The result dict returned by the calibration computations. -/
structure CalibResult where
  success : Bool
  message : Option String := none
  accuracy_px : Option ℚ := none
  transform : Option CalibTransform := none
  points_used : Option ℕ := none
  method : Option String := none
  deriving DecidableEq, Repr

/-- Per-axis scale of `calculate_calibration_transform`: range ratio when
the axis has at least two distinct values (`len(set(vals)) > 1`),
identity scale otherwise. -/
def axisScale (screen_vals gaze_vals : List ℚ) : ℚ :=
  if 1 < gaze_vals.dedup.length then
    (listMax screen_vals - listMin screen_vals) / (listMax gaze_vals - listMin gaze_vals)
  else 1

/-- Per-axis offset: difference of means under the computed scale, zero on
a degenerate axis. -/
def axisOffset (screen_vals gaze_vals : List ℚ) : ℚ :=
  if 1 < gaze_vals.dedup.length then
    screen_vals.sum / screen_vals.length -
      axisScale screen_vals gaze_vals * (gaze_vals.sum / gaze_vals.length)
  else 0

/-- `GazeDataManager.calculate_calibration_transform` (the linear path):
fails with the insufficient-points message below 4 captured points
(leaving the state untouched); otherwise derives per-axis scale/offset,
reports the mean reprojection error through the numeric square root `sq`,
swaps the new transform into the state and ends calibration. -/
def calculate_calibration_transform (sq : ℚ → ℚ) (now : ℚ) (st : CalibState) :
    CalibResult × CalibState :=
  if st.calibration_points.length < 4 then
    ({ success := false,
       message := some ("Need at least 4 points, got " ++
         toString st.calibration_points.length) }, st)
  else
    let pts := st.calibration_points
    let gaze_x_vals := pts.map (fun p => p.gaze_x)
    let gaze_y_vals := pts.map (fun p => p.gaze_y)
    let screen_x_vals := pts.map (fun p => p.screen_x)
    let screen_y_vals := pts.map (fun p => p.screen_y)
    let scale_x := axisScale screen_x_vals gaze_x_vals
    let offset_x := axisOffset screen_x_vals gaze_x_vals
    let scale_y := axisScale screen_y_vals gaze_y_vals
    let offset_y := axisOffset screen_y_vals gaze_y_vals
    let errors := pts.map (fun p =>
      sq ((p.gaze_x * scale_x + offset_x - p.screen_x) ^ 2 +
          (p.gaze_y * scale_y + offset_y - p.screen_y) ^ 2))
    let accuracy_px := errors.sum / errors.length
    let transform : CalibTransform :=
      { scale_x := some scale_x, scale_y := some scale_y,
        offset_x := some offset_x, offset_y := some offset_y,
        accuracy_px := some accuracy_px, calibrated := some true,
        points_used := some pts.length, timestamp := some now }
    ({ success := true, accuracy_px := some accuracy_px,
       transform := some transform, points_used := some pts.length },
     { st with calibration_transform := transform, is_calibrating := false })

/-- `GazeDataManager.calculate_homography_calibration_transform`.  The
external numeric solve (OpenCV/NumPy homography with its reprojection
accuracy) and the SDK camera-intrinsics call are inputs: `intrinsics` is
`get_scene_camera_intrinsics`' result and `hom` the matrix/accuracy pair
produced by `_calculate_opencv_homography` or `_calculate_manual_homography`
(`none` models their failure).  Below 4 points it fails with the
insufficient-points message without touching the state; with a missing
prerequisite or failed solve it falls back to the linear path. -/
def calculate_homography_calibration_transform (sq : ℚ → ℚ) (now : ℚ)
    (intrinsics : Option CameraIntrinsics) (hom : Option (List (List ℚ) × ℚ))
    (st : CalibState) : CalibResult × CalibState :=
  if st.calibration_points.length < 4 then
    ({ success := false,
       message := some ("Need at least 4 points for homography, got " ++
         toString st.calibration_points.length) }, st)
  else
    match intrinsics with
    | none => calculate_calibration_transform sq now st
    | some ci =>
      match hom with
      | none => calculate_calibration_transform sq now st
      | some (H, accuracy) =>
        let transform : CalibTransform :=
          { method := some "homography", homography_matrix := some H,
            camera_intrinsics := some ci, accuracy_px := some accuracy,
            calibrated := some true, points_used := some st.calibration_points.length,
            timestamp := some now, scale_x := some 1, scale_y := some 1,
            offset_x := some 0, offset_y := some 0 }
        ({ success := true, accuracy_px := some accuracy,
           transform := some transform,
           points_used := some st.calibration_points.length,
           method := some "homography" },
         { st with calibration_transform := transform, is_calibrating := false })

/-! ## Hit logging — `backend/models/hit_log.py` -/

/-- `HitLog` dataclass. -/
structure HitLog where
  gaze_timestamp : ℚ
  aoi_id : String
  hit_type : String
  gaze_x : ℚ
  gaze_y : ℚ
  confidence : ℚ
  aoi_text : String
  aoi_center_x : ℚ
  aoi_center_y : ℚ
  fixation_duration : ℚ := 0
  entry_velocity : ℚ := 0
  is_vocabulary_word : Bool := false
  session_id : Option String := none
  sequence_number : ℕ := 0
  created_at : Option ℚ := none
  cognitive_load_score : Option ℚ := none
  deriving DecidableEq, Repr

/-- `HitLog.create_from_gaze_and_aoi`.  `now` is the `time.time()` read
stored in `created_at`. -/
def HitLog.create_from_gaze_and_aoi (g : GazePoint) (aoi : AOIElement)
    (hit_type : String) (session_id : Option String) (now : ℚ) : HitLog :=
  { gaze_timestamp := g.timestamp
    aoi_id := aoi.id
    hit_type := hit_type
    gaze_x := orQ g.calibrated_x g.gaze_pos_x
    gaze_y := orQ g.calibrated_y g.gaze_pos_y
    confidence := g.confidence
    aoi_text := aoi.text
    aoi_center_x := aoi.get_center_point.1
    aoi_center_y := aoi.get_center_point.2
    is_vocabulary_word := aoi.vocabulary_word
    session_id := session_id
    created_at := some now }

/-- `HitLogManager` state.  The `current_fixations` tracking map is not
touched by any operation embedded here and is omitted. -/
structure HitLogManager where
  session_id : Option String := none
  hits : List HitLog := []
  sequence_counter : ℕ := 0
  deriving DecidableEq, Repr

/-- `HitLogManager.add_hit`: stamp the hit with the next sequence number
and (when the manager has a truthy session id) the session id, then
append.  Returns the stamped hit as well, since Python mutates the shared
`HitLog` object in place and its other holders see the stamped value. -/
def HitLogManager.add_hit (m : HitLogManager) (hit : HitLog) : HitLogManager × HitLog :=
  let seq := m.sequence_counter + 1
  let sid :=
    match m.session_id with
    | some s => if s = "" then hit.session_id else some s
    | none => hit.session_id
  let hit' := { hit with sequence_number := seq, session_id := sid }
  ({ m with sequence_counter := seq, hits := m.hits ++ [hit'] }, hit')

/-! ## Live session state — `backend/manager/gaze_manager.py` -/

/-- A cognitive-load snapshot as built by `_update_cognitive_load`.  The
Python code additionally rounds `score`, `gaze_dispersion` and
`avg_velocity` for display (`round(x, 1)` / `round(x, 2)`); the rounding
is omitted here as pure output formatting. -/
structure CognitiveLoad where
  score : ℚ
  level : String
  color : String
  timestamp : ℚ
  gaze_dispersion : ℚ
  avg_velocity : ℚ
  sample_count : ℕ
  deriving DecidableEq, Repr

/-- The live per-session slice of `GazeDataManager` state touched by
`_process_gaze_sample_from_sdk` and its callees. -/
structure GazeManagerState where
  gaze_trail : List GazePoint := []
  current_gaze : Option GazePoint := none
  total_samples : ℕ := 0
  recent_hits : List HitLog := []
  vocabulary_discoveries : List String := []
  current_cognitive_load : Option CognitiveLoad := none
  cognitive_load_history : List CognitiveLoad := []
  aoi_collection : AOICollection := {}
  calibration_transform : CalibTransform := {}
  hit_log_manager : Option HitLogManager := none
  achievement_manager : Option AchievementManager := none
  session_start_time : Option ℚ := none
  current_session_id : Option String := none
  deriving Repr

/-- The pairwise gaze velocities of `_update_cognitive_load`: for each
adjacent pair with positive time delta, the point distance (through the
numeric square root `sq`) over the delta. -/
def gazeVelocities (sq : ℚ → ℚ) : List GazePoint → List ℚ
  | a :: b :: rest =>
    (if 0 < b.timestamp - a.timestamp then
      [sq ((b.gaze_pos_x - a.gaze_pos_x) ^ 2 + (b.gaze_pos_y - a.gaze_pos_y) ^ 2) /
        (b.timestamp - a.timestamp)]
     else []) ++ gazeVelocities sq (b :: rest)
  | _ => []

/-- `GazeDataManager._update_cognitive_load`: no-op below 5 trail points;
otherwise score the last 10 points by dispersion and mean velocity,
publish the snapshot, push it onto the bounded (20-entry) history, and
advance the focus achievements by the session duration. -/
def update_cognitive_load (sq : ℚ → ℚ) (now : ℚ) (st : GazeManagerState) :
    GazeManagerState :=
  if st.gaze_trail.length < 5 then st
  else
    let recent := if 10 ≤ st.gaze_trail.length then lastN st.gaze_trail 10 else st.gaze_trail
    let x_coords := recent.map (fun p => p.gaze_pos_x)
    let y_coords := recent.map (fun p => p.gaze_pos_y)
    let x_range := if 1 < x_coords.length then listMax x_coords - listMin x_coords else 0
    let y_range := if 1 < y_coords.length then listMax y_coords - listMin y_coords else 0
    let dispersion := (x_range + y_range) / 2
    let velocities := gazeVelocities sq recent
    let avg_velocity := if velocities.isEmpty then 0 else velocities.sum / velocities.length
    let dispersion_score := min 100 (dispersion / 5)
    let velocity_score := min 100 (avg_velocity / 100)
    let cognitive_score := dispersion_score * (6 / 10) + velocity_score * (4 / 10)
    let level_color :=
      if cognitive_score < 30 then ("LOW", "green")
      else if cognitive_score < 70 then ("MEDIUM", "orange")
      else ("HIGH", "red")
    let load : CognitiveLoad :=
      { score := cognitive_score, level := level_color.1, color := level_color.2,
        timestamp := now, gaze_dispersion := dispersion, avg_velocity := avg_velocity,
        sample_count := recent.length }
    let st1 := { st with current_cognitive_load := some load,
                         cognitive_load_history := pushBounded st.cognitive_load_history load 20 }
    match st1.achievement_manager, st1.session_start_time with
    | some mgr, some t0 =>
      { st1 with achievement_manager := some (mgr.update_focus_progress (now - t0) now).1 }
    | _, _ => st1

/-- `GazeDataManager._process_aoi_hits`: look up the calibrated point in
the AOI index; on a hit (and with a hit-log manager present) push the hit
onto the bounded (10-entry) `recent_hits` list; a vocabulary hit is
additionally stamped with the hard-coded `fixation_duration = 1.5`,
logged, recorded as a discovery (bounded to 10) and fed to the
vocabulary achievements.  The tag call on the device SDK is external I/O.
Python mutates one shared `HitLog` object, so the entry seen by
`recent_hits` carries the stamps applied after it was appended. -/
def process_aoi_hits (now : ℚ) (st : GazeManagerState) (g : GazePoint) :
    GazeManagerState :=
  let hit_x := orQ g.calibrated_x g.gaze_pos_x
  let hit_y := orQ g.calibrated_y g.gaze_pos_y
  match st.aoi_collection.find_hit hit_x hit_y, st.hit_log_manager with
  | some aoi, some hlm =>
    let hit0 := HitLog.create_from_gaze_and_aoi g aoi "2d" st.current_session_id now
    if aoi.vocabulary_word then
      let r := hlm.add_hit { hit0 with fixation_duration := 3 / 2 }
      let st1 := { st with recent_hits := pushBounded st.recent_hits r.2 10,
                           hit_log_manager := some r.1 }
      if aoi.text ∈ st1.vocabulary_discoveries then st1
      else
        let discoveries :=
          let l := st1.vocabulary_discoveries ++ [aoi.text]
          if 10 < l.length then l.drop 1 else l
        let st2 := { st1 with vocabulary_discoveries := discoveries }
        match st2.achievement_manager with
        | some mgr =>
          let mgr' := (mgr.update_vocabulary_progress discoveries.length now).1
          { st2 with achievement_manager := some mgr' }
        | none => st2
    else
      { st with recent_hits := pushBounded st.recent_hits hit0 10 }
  | _, _ => st

/-- The "update cognitive load every 100 samples or once the trail holds
10 points" step of `_process_gaze_sample_from_sdk`. -/
def cognitive_step (sq : ℚ → ℚ) (now : ℚ) (st1 : GazeManagerState) : GazeManagerState :=
  if st1.total_samples % 100 = 0 ∨ 10 ≤ st1.gaze_trail.length then
    update_cognitive_load sq now st1
  else st1

/-- `GazeDataManager._process_gaze_sample_from_sdk`: calibrate the
incoming point, publish it as the current gaze, push it onto the bounded
(20-entry) trail, count it, run the cognitive-load step, and process AOI
hits for valid points. -/
def process_gaze_sample (sq : ℚ → ℚ) (now : ℚ) (st : GazeManagerState)
    (g0 : GazePoint) : GazeManagerState :=
  let g := GazePoint.apply_calibration_transform st.calibration_transform g0
  let st1 := { st with current_gaze := some g, gaze_trail := pushBounded st.gaze_trail g 20,
                       total_samples := st.total_samples + 1 }
  let st2 := cognitive_step sq now st1
  if g.is_valid then process_aoi_hits now st2 g else st2

/-! ## Supporting lemmas -/

theorem le_listMax : ∀ (l : List ℚ), ∀ x ∈ l, x ≤ listMax l := by
  intro l
  induction l with
  | nil => intro x hx; simp at hx
  | cons a t ih =>
    intro x hx
    cases t with
    | nil =>
      simp only [List.mem_singleton] at hx
      subst hx
      simp [listMax]
    | cons b r =>
      simp only [listMax]
      rw [List.mem_cons] at hx
      rcases hx with hx | hx
      · subst hx; exact le_max_left _ _
      · exact le_trans (ih x hx) (le_max_right _ _)

theorem listMin_le : ∀ (l : List ℚ), ∀ x ∈ l, listMin l ≤ x := by
  intro l
  induction l with
  | nil => intro x hx; simp at hx
  | cons a t ih =>
    intro x hx
    cases t with
    | nil =>
      simp only [List.mem_singleton] at hx
      subst hx
      simp [listMin]
    | cons b r =>
      simp only [listMin]
      rw [List.mem_cons] at hx
      rcases hx with hx | hx
      · subst hx; exact min_le_left _ _
      · exact le_trans (min_le_right _ _) (ih x hx)

theorem listMax_const : ∀ (l : List ℚ) (c : ℚ), l ≠ [] → (∀ x ∈ l, x = c) →
    listMax l = c := by
  intro l
  induction l with
  | nil => intro c hne _; exact absurd rfl hne
  | cons a t ih =>
    intro c _ hall
    have ha : a = c := hall a (List.mem_cons_self a t)
    cases t with
    | nil => simpa [listMax] using ha
    | cons b r =>
      have ht : listMax (b :: r) = c :=
        ih c (List.cons_ne_nil b r) (fun x hx => hall x (List.mem_cons_of_mem a hx))
      simp [listMax, ha, ht]

theorem listMin_const : ∀ (l : List ℚ) (c : ℚ), l ≠ [] → (∀ x ∈ l, x = c) →
    listMin l = c := by
  intro l
  induction l with
  | nil => intro c hne _; exact absurd rfl hne
  | cons a t ih =>
    intro c _ hall
    have ha : a = c := hall a (List.mem_cons_self a t)
    cases t with
    | nil => simpa [listMin] using ha
    | cons b r =>
      have ht : listMin (b :: r) = c :=
        ih c (List.cons_ne_nil b r) (fun x hx => hall x (List.mem_cons_of_mem a hx))
      simp [listMin, ha, ht]

theorem sum_const (l : List ℚ) (c : ℚ) (h : ∀ x ∈ l, x = c) :
    l.sum = l.length * c := by
  induction l with
  | nil => simp
  | cons a t ih =>
    have ha : a = c := h a (List.mem_cons_self a t)
    have ht := ih (fun x hx => h x (List.mem_cons_of_mem a hx))
    simp only [List.sum_cons, List.length_cons, ht, ha]
    push_cast
    ring

theorem dedup_pair {l : List ℚ} (h : 1 < l.dedup.length) :
    ∃ a ∈ l, ∃ b ∈ l, a ≠ b := by
  have hnd := l.nodup_dedup
  match hd : l.dedup with
  | [] => rw [hd] at h; simp at h
  | [x] => rw [hd] at h; simp at h
  | x :: y :: t =>
    rw [hd] at hnd
    have hxy : x ≠ y := by
      intro he
      subst he
      exact (List.nodup_cons.mp hnd).1 (List.mem_cons_self x t)
    have hx : x ∈ l := List.mem_dedup.mp (hd ▸ List.mem_cons_self x (y :: t))
    have hy : y ∈ l :=
      List.mem_dedup.mp (hd ▸ List.mem_cons_of_mem x (List.mem_cons_self y t))
    exact ⟨x, hx, y, hy, hxy⟩

theorem listMin_lt_listMax {l : List ℚ} (h : 1 < l.dedup.length) :
    listMin l < listMax l := by
  obtain ⟨a, ha, b, hb, hab⟩ := dedup_pair h
  rcases lt_or_gt_of_ne hab with hlt | hgt
  · exact lt_of_le_of_lt (listMin_le l a ha) (lt_of_lt_of_le hlt (le_listMax l b hb))
  · exact lt_of_le_of_lt (listMin_le l b hb) (lt_of_lt_of_le hgt (le_listMax l a ha))

theorem mem_dictInsert {α : Type _} {kvs : List (String × α)} {k : String} {v : α}
    {p : String × α} (hp : p ∈ dictInsert kvs k v) : p = (k, v) ∨ p ∈ kvs := by
  induction kvs with
  | nil => simpa [dictInsert] using hp
  | cons q rest ih =>
    simp only [dictInsert] at hp
    split at hp
    · rw [List.mem_cons] at hp
      rcases hp with hp | hp
      · exact Or.inl hp
      · exact Or.inr (List.mem_cons_of_mem q hp)
    · rw [List.mem_cons] at hp
      rcases hp with hp | hp
      · exact Or.inr (hp ▸ List.mem_cons_self q rest)
      · rcases ih hp with hp | hp
        · exact Or.inl hp
        · exact Or.inr (List.mem_cons_of_mem q hp)

theorem dictGet_dictInsert_self {α : Type _} (kvs : List (String × α)) (k : String)
    (v : α) : dictGet (dictInsert kvs k v) k = some v := by
  induction kvs with
  | nil => simp [dictInsert, dictGet, List.find?]
  | cons q rest ih =>
    by_cases hq : q.1 = k
    · simp [dictInsert, dictGet, hq, List.find?]
    · simp only [dictInsert, if_neg hq]
      simp only [dictGet] at ih ⊢
      rw [List.find?_cons_of_neg _ (by simp [hq])]
      exact ih

theorem keys_mem_dictInsert {α : Type _} {kvs : List (String × α)} {k : String}
    {v : α} {x : String} (hx : x ∈ (dictInsert kvs k v).map Prod.fst) :
    x ∈ kvs.map Prod.fst ∨ x = k := by
  rw [List.mem_map] at hx
  obtain ⟨p, hp, hpx⟩ := hx
  rcases mem_dictInsert hp with hp | hp
  · subst hp; exact Or.inr hpx.symm
  · exact Or.inl (hpx ▸ List.mem_map_of_mem Prod.fst hp)

theorem nodup_dictInsert {α : Type _} (kvs : List (String × α)) (k : String) (v : α)
    (h : (kvs.map Prod.fst).Nodup) : ((dictInsert kvs k v).map Prod.fst).Nodup := by
  induction kvs with
  | nil => simp [dictInsert]
  | cons q rest ih =>
    rw [List.map_cons, List.nodup_cons] at h
    by_cases hq : q.1 = k
    · simp only [dictInsert, if_pos hq, List.map_cons, List.nodup_cons]
      exact ⟨hq ▸ h.1, h.2⟩
    · simp only [dictInsert, if_neg hq, List.map_cons, List.nodup_cons]
      refine ⟨fun hmem => ?_, ih h.2⟩
      rcases keys_mem_dictInsert hmem with hmem | hmem
      · exact h.1 hmem
      · exact hq hmem

theorem filter_eq_nil_of_key_not_mem {α : Type _} {kvs : List (String × α)}
    {k : String} (h : k ∉ kvs.map Prod.fst) :
    kvs.filter (fun p => p.1 = k) = [] := by
  rw [List.filter_eq_nil_iff]
  intro p hp
  simp only [decide_eq_true_eq]
  intro he
  exact h (he ▸ List.mem_map_of_mem Prod.fst hp)

theorem filter_dictInsert_self {α : Type _} (kvs : List (String × α)) (k : String)
    (v : α) (h : (kvs.map Prod.fst).Nodup) :
    ((dictInsert kvs k v).filter (fun p => p.1 = k)).length = 1 := by
  induction kvs with
  | nil => simp [dictInsert]
  | cons q rest ih =>
    rw [List.map_cons, List.nodup_cons] at h
    by_cases hq : q.1 = k
    · simp only [dictInsert, if_pos hq]
      rw [List.filter_cons]
      simp only [decide_eq_true_eq, if_pos rfl]
      rw [filter_eq_nil_of_key_not_mem (hq ▸ h.1)]
      rfl
    · simp only [dictInsert, if_neg hq]
      rw [List.filter_cons]
      simp only [decide_eq_true_eq, if_neg hq]
      exact ih h.2

theorem pushBounded_length_le (l : List α) (v : α) (n : ℕ) (h : l.length ≤ n) :
    (pushBounded l v n).length ≤ n := by
  simp only [pushBounded]
  split
  · simp only [List.length_drop, List.length_append, List.length_singleton]
    omega
  · rename_i hlt
    simp only [List.length_append, List.length_singleton] at hlt ⊢
    omega

theorem pushBounded_full (l : List α) (v : α) (n : ℕ) (h : l.length = n)
    (hn : 0 < n) : pushBounded l v n = l.drop 1 ++ [v] := by
  simp only [pushBounded]
  rw [if_pos (by simp [h])]
  rw [List.drop_append_of_le_length (by omega)]

theorem filterMap_eq_map_of_some {α β : Type _} (l : List α) (f : α → Option β)
    (g : α → β) (h : ∀ x ∈ l, f x = some (g x)) : l.filterMap f = l.map g := by
  induction l with
  | nil => simp
  | cons a t ih =>
    rw [List.filterMap_cons, h a (List.mem_cons_self a t), List.map_cons,
      ih (fun x hx => h x (List.mem_cons_of_mem a hx))]

theorem AOICollection.wf_empty : AOICollection.Wf {} := by
  constructor <;> intro p hp <;> simp at hp

theorem AOICollection.wf_add (c : AOICollection) (aoi : AOIElement) (h : c.Wf) :
    (c.add_element aoi).Wf := by
  obtain ⟨h1, h2⟩ := h
  constructor
  · intro p hp hv
    simp only [add_element] at hp ⊢
    rcases mem_dictInsert hp with hp | hp
    · subst hp
      simp only at hv
      simp [hv]
    · have := h1 p hp hv
      split
      · exact List.mem_append_left _ this
      · exact this
  · intro a ha
    simp only [add_element] at ha
    split at ha
    · rw [List.mem_append] at ha
      rcases ha with ha | ha
      · exact h2 a ha
      · simp only [List.mem_singleton] at ha
        subst ha
        assumption
    · exact h2 a ha

/-! ## Claim C3 — point-in-rectangle containment -/

/-- The left AOI of the C3/C8 counterexample scenes. -/
def c3_left : AOIElement :=
  { id := "left", x := 0, y := 0, width := 10, height := 10, text := "left" }

/-- An AOI adjacent to `c3_left` on the right, sharing the edge `x = 10`. -/
def c3_right : AOIElement :=
  { id := "right", x := 10, y := 0, width := 10, height := 10, text := "right" }

/-- C3, counterexample: `contains_point` is NOT half-open on the upper
edges.  The point (10, 5) lies exactly on the right edge of the AOI
(0, 0, 10, 10) and the code reports it as a hit, which the half-open
reading forbids; moreover the same point is simultaneously contained in
the adjacent AOI (10, 0, 10, 10), so a shared-edge point hits two AOIs,
not at most one. -/
theorem C3_counterexample :
    c3_left.contains_point 10 5 = true ∧
    ¬ containsPointSpecHalfOpen c3_left 10 5 ∧
    c3_right.contains_point 10 5 = true := by
  refine ⟨by norm_num [c3_left, AOIElement.contains_point], ?_,
    by norm_num [c3_right, AOIElement.contains_point]⟩
  intro h
  have := h.2.1
  norm_num [c3_left] at this

/-- C3, amended: point-in-rectangle containment is inclusive (closed) on
all four edges: `contains_point` holds iff
`x ≤ px ≤ x + width ∧ y ≤ py ≤ y + height`.  Consequently a point on the
shared edge of two horizontally adjacent AOIs of nonnegative extent is
contained in both of them (the double-hit the spec wanted to rule out is
resolved only by `find_hit`'s list order). -/
theorem C3_contains_point_closed :
    (∀ (a : AOIElement) (px py : ℚ), a.contains_point px py = true ↔
      (a.x ≤ px ∧ px ≤ a.x + a.width ∧ a.y ≤ py ∧ py ≤ a.y + a.height)) ∧
    (∀ (a b : AOIElement) (py : ℚ), b.x = a.x + a.width → 0 ≤ a.width → 0 ≤ b.width →
      a.y ≤ py → py ≤ a.y + a.height → b.y ≤ py → py ≤ b.y + b.height →
      a.contains_point (a.x + a.width) py = true ∧
        b.contains_point (a.x + a.width) py = true) := by
  constructor
  · intro a px py
    simp [AOIElement.contains_point]
  · intro a b py hadj haw hbw hay hay' hby hby'
    constructor
    · simp only [AOIElement.contains_point, decide_eq_true_eq]
      refine ⟨by linarith, le_refl _, hay, hay'⟩
    · simp only [AOIElement.contains_point, decide_eq_true_eq]
      refine ⟨by linarith, by linarith, hby, hby'⟩

/-- Witness for `C3_contains_point_closed` at the concrete adjacent AOI
pair of the counterexample scene and the shared-edge point (10, 5). -/
theorem C3_contains_point_closed_witness :
    c3_left.contains_point (c3_left.x + c3_left.width) 5 = true ∧
    c3_right.contains_point (c3_left.x + c3_left.width) 5 = true :=
  C3_contains_point_closed.2 c3_left c3_right 5 (by norm_num [c3_left, c3_right])
    (by norm_num [c3_left]) (by norm_num [c3_right]) (by norm_num [c3_left])
    (by norm_num [c3_left]) (by norm_num [c3_right]) (by norm_num [c3_right])

/-! ## Claim C8 — duplicate-id `add_element` -/

/-- The original vocabulary AOI of the C8 scenario. -/
def c8_old : AOIElement :=
  { id := "w", x := 0, y := 0, width := 10, height := 10, text := "old",
    vocabulary_word := true }

/-- A replacement AOI with the same id covering the same rectangle. -/
def c8_new : AOIElement :=
  { id := "w", x := 0, y := 0, width := 10, height := 10, text := "new",
    vocabulary_word := true }

/-- The collection after adding `c8_old` and then the same-id `c8_new`. -/
def c8_coll : AOICollection :=
  (AOICollection.add_element {} c8_old).add_element c8_new

/-- C8, counterexample: adding an AOI with a duplicate id replaces it in
the id map (lookup returns the new AOI), but `find_hit` still returns the
REPLACED AOI: the stale element is never removed from the kind list that
`find_hit` iterates, and it precedes the replacement there. -/
theorem C8_counterexample :
    AOICollection.lookup c8_coll "w" = some c8_new ∧
    AOICollection.find_hit c8_coll 5 5 = some c8_old ∧
    c8_old ≠ c8_new := by
  refine ⟨?_, ?_, by simp [c8_old, c8_new]⟩
  · norm_num [c8_coll, c8_old, c8_new, AOICollection.lookup,
      AOICollection.add_element, dictInsert, dictGet, List.find?]
  · norm_num [c8_coll, c8_old, c8_new, AOICollection.find_hit,
      AOICollection.add_element, dictInsert, AOIElement.contains_point, List.find?]

/-- C8, amended: adding an AOI whose id is already present replaces the
binding in the id map — lookup by the id returns the new AOI and the map
holds exactly one entry for the id (given unique keys, which `add_element`
preserves).  The replaced AOI however remains in the kind lists searched
by `find_hit`, which can therefore still return it (see the
counterexample). -/
theorem C8_add_element_replaces (c : AOICollection) (aoi : AOIElement)
    (h : (c.elements.map Prod.fst).Nodup) :
    AOICollection.lookup (c.add_element aoi) aoi.id = some aoi ∧
    ((c.add_element aoi).elements.map Prod.fst).Nodup ∧
    ((c.add_element aoi).elements.filter (fun p => p.1 = aoi.id)).length = 1 := by
  refine ⟨?_, ?_, ?_⟩
  · simp only [AOICollection.lookup, AOICollection.add_element]
    exact dictGet_dictInsert_self c.elements aoi.id aoi
  · simp only [AOICollection.add_element]
    exact nodup_dictInsert c.elements aoi.id aoi h
  · simp only [AOICollection.add_element]
    exact filter_dictInsert_self c.elements aoi.id aoi h

/-- Witness for `C8_add_element_replaces`: replacing `c8_old` by `c8_new`
in the singleton collection. -/
theorem C8_add_element_replaces_witness :
    AOICollection.lookup
      ((AOICollection.add_element {} c8_old).add_element c8_new) c8_new.id =
        some c8_new ∧
    (((AOICollection.add_element {} c8_old).add_element c8_new).elements.map
      Prod.fst).Nodup ∧
    (((AOICollection.add_element {} c8_old).add_element c8_new).elements.filter
      (fun p => p.1 = c8_new.id)).length = 1 :=
  C8_add_element_replaces (AOICollection.add_element {} c8_old) c8_new
    (by simp [AOICollection.add_element, c8_old, dictInsert])

/-! ## Claim C9 — achievement progress -/

theorem update_progress_signal_iff (a : Achievement) (v now : ℚ) :
    (a.update_progress v now).1 = true ↔
      (a.unlocked = false ∧ a.target_value ≤ v) := by
  simp only [Achievement.update_progress]
  split
  · rename_i h
    simpa using h
  · rename_i h
    simpa using h

theorem update_progress_unlocked_mono (a : Achievement) (v now : ℚ)
    (h : a.unlocked = true) : (a.update_progress v now).2.unlocked = true := by
  simp only [Achievement.update_progress]
  split
  · rfl
  · simpa using h

theorem update_progress_unlocks (a : Achievement) (v now : ℚ)
    (h : (a.update_progress v now).1 = true) :
    (a.update_progress v now).2.unlocked = true := by
  obtain ⟨h1, h2⟩ := (update_progress_signal_iff a v now).mp h
  have hc : ({ a with current_value := v } : Achievement).unlocked = false ∧
      ({ a with current_value := v } : Achievement).target_value ≤
        ({ a with current_value := v } : Achievement).current_value := ⟨h1, h2⟩
  simp only [Achievement.update_progress, if_pos hc]

theorem run_updates_unlocked_mono (l : List (ℚ × ℚ)) :
    ∀ (a : Achievement), a.unlocked = true → (a.run_updates l).1.unlocked = true := by
  induction l with
  | nil =>
    intro a h
    simpa [Achievement.run_updates] using h
  | cons p rest ih =>
    intro a h
    obtain ⟨v, now⟩ := p
    simp only [Achievement.run_updates]
    exact ih _ (update_progress_unlocked_mono a v now h)

theorem run_updates_count (l : List (ℚ × ℚ)) :
    ∀ (a : Achievement), (a.run_updates l).2 ≤ if a.unlocked = true then 0 else 1 := by
  induction l with
  | nil =>
    intro a
    simp [Achievement.run_updates]
  | cons p rest ih =>
    intro a
    obtain ⟨v, now⟩ := p
    simp only [Achievement.run_updates]
    by_cases h : a.unlocked = true
    · have hs : (a.update_progress v now).1 = false := by
        rw [← Bool.not_eq_true]
        intro ht
        have h1 := ((update_progress_signal_iff a v now).mp ht).1
        rw [h] at h1
        cases h1
      have ha' := update_progress_unlocked_mono a v now h
      have hrec := ih (a.update_progress v now).2
      rw [if_pos ha'] at hrec
      rw [if_pos h]
      simp only [hs]
      simpa using hrec
    · by_cases hs : (a.update_progress v now).1 = true
      · have ha' := update_progress_unlocks a v now hs
        have hrec := ih (a.update_progress v now).2
        rw [if_pos ha'] at hrec
        rw [if_neg h]
        simp only [hs, if_pos trivial]
        omega
      · rw [Bool.not_eq_true] at hs
        have hrec := ih (a.update_progress v now).2
        have hle : ((a.update_progress v now).2.run_updates rest).2 ≤ 1 := by
          split at hrec <;> omega
        rw [if_neg h]
        simp only [hs]
        simpa using hle

/-- The achievement used in the C9 counterexample and witness. -/
def c9_ach : Achievement :=
  { id := "vocab_explorer", title := "Word Explorer",
    description := "Discover 5 vocabulary words", category := "vocabulary",
    target_value := 10 }

/-- C9, counterexample: `update_progress` overwrites `current_value` with
the reported value unconditionally, so the progress value can DECREASE:
reporting 5 and then 3 leaves `current_value = 3 < 5`, contradicting
monotone non-decreasing progress. -/
theorem C9_counterexample :
    (c9_ach.update_progress 5 0).2.current_value = 5 ∧
    ((c9_ach.update_progress 5 0).2.update_progress 3 1).2.current_value = 3 ∧
    (3 : ℚ) < 5 := by
  refine ⟨?_, ?_, by norm_num⟩ <;> norm_num [c9_ach, Achievement.update_progress]

/-- C9, amended: `current_value` simply tracks the latest reported value
and need not be monotone, but the unlock half of the claim holds: once
`unlocked` is true it never reverts over any update sequence, the unlock
signal (`update_progress` returning `true`) is produced at most once over
the whole sequence, and a call signals exactly when it transitions the
achievement from locked to unlocked (not-yet-unlocked and the new value
reaches the target), after which the achievement is unlocked. -/
theorem C9_unlock_once (a : Achievement) (updates : List (ℚ × ℚ)) :
    (a.unlocked = true → (a.run_updates updates).1.unlocked = true) ∧
    ((a.run_updates updates).2 ≤ 1) ∧
    (a.unlocked = true → (a.run_updates updates).2 = 0) ∧
    (∀ v now, ((a.update_progress v now).1 = true ↔
        (a.unlocked = false ∧ a.target_value ≤ v)) ∧
      ((a.update_progress v now).1 = true →
        (a.update_progress v now).2.unlocked = true)) := by
  refine ⟨run_updates_unlocked_mono updates a, ?_, ?_, ?_⟩
  · have := run_updates_count updates a
    split at this <;> omega
  · intro h
    have := run_updates_count updates a
    rw [h] at this
    simpa using this
  · intro v now
    exact ⟨update_progress_signal_iff a v now, update_progress_unlocks a v now⟩

/-- Witness for `C9_unlock_once` at a concrete achievement and update
sequence (5, then 12 which unlocks, then 20). -/
theorem C9_unlock_once_witness :
    (c9_ach.unlocked = true → (c9_ach.run_updates [(5, 0), (12, 1), (20, 2)]).1.unlocked = true) ∧
    ((c9_ach.run_updates [(5, 0), (12, 1), (20, 2)]).2 ≤ 1) ∧
    (c9_ach.unlocked = true → (c9_ach.run_updates [(5, 0), (12, 1), (20, 2)]).2 = 0) ∧
    (∀ v now, ((c9_ach.update_progress v now).1 = true ↔
        (c9_ach.unlocked = false ∧ c9_ach.target_value ≤ v)) ∧
      ((c9_ach.update_progress v now).1 = true →
        (c9_ach.update_progress v now).2.unlocked = true)) :=
  C9_unlock_once c9_ach [(5, 0), (12, 1), (20, 2)]

/-! ## Claim C4 — vocabulary AOIs win in `find_hit` -/

/-- C4: for a well-formed collection (as maintained by `add_element` from
empty, see `AOICollection.wf_empty` / `AOICollection.wf_add`), if any
vocabulary AOI stored in the collection contains the query point, then
`find_hit` returns a vocabulary AOI — even when content AOIs also contain
the point, since the vocabulary list is searched first. -/
theorem C4_find_hit_vocab_first (c : AOICollection) (x y : ℚ) (hwf : c.Wf)
    (h : ∃ p ∈ c.elements, p.2.vocabulary_word = true ∧ p.2.contains_point x y = true) :
    ∃ r, c.find_hit x y = some r ∧ r.vocabulary_word = true := by
  obtain ⟨p, hp, hv, hcp⟩ := h
  have hmem : p.2 ∈ c.vocabulary_words := hwf.1 p hp hv
  have hsome : (c.vocabulary_words.find? (fun a => a.contains_point x y)).isSome := by
    rw [List.find?_isSome]
    exact ⟨p.2, hmem, hcp⟩
  obtain ⟨r, hr⟩ := Option.isSome_iff_exists.mp hsome
  refine ⟨r, ?_, hwf.2 r (List.mem_of_find?_eq_some hr)⟩
  simp only [AOICollection.find_hit, hr]

/-- The vocabulary AOI of the C4 witness scene. -/
def c4_vocab : AOIElement :=
  { id := "word", x := 0, y := 0, width := 10, height := 10, text := "word",
    vocabulary_word := true }

/-- A larger content AOI containing the same point. -/
def c4_content : AOIElement :=
  { id := "para", x := 0, y := 0, width := 100, height := 100, text := "para" }

/-- The C4 witness collection: a content AOI added first, then an
overlapping vocabulary AOI. -/
def c4_coll : AOICollection :=
  (AOICollection.add_element {} c4_content).add_element c4_vocab

/-- Witness for `C4_find_hit_vocab_first`: the point (5, 5) lies in both
the content AOI and the vocabulary AOI; `find_hit` returns a vocabulary
AOI. -/
theorem C4_find_hit_vocab_first_witness :
    ∃ r, c4_coll.find_hit 5 5 = some r ∧ r.vocabulary_word = true :=
  C4_find_hit_vocab_first c4_coll 5 5
    (AOICollection.wf_add _ _ (AOICollection.wf_add _ _ AOICollection.wf_empty))
    ⟨(c4_vocab.id, c4_vocab),
      by simp [c4_coll, AOICollection.add_element, c4_vocab, c4_content, dictInsert],
      rfl,
      by norm_num [c4_vocab, AOIElement.contains_point]⟩

/-! ## Claim C7 — calibrated coordinates are clamped to screen bounds -/

/-- C7: when no calibration is active the screen coordinates equal the raw
device coordinates; when a calibration is active (and the configured
screen bounds are nonnegative), the coordinates produced by
`apply_calibration_transform` — through either the homography or the
linear path — are clamped into [0, screen_width] × [0, screen_height]. -/
theorem C7_apply_calibration_bounds (t : CalibTransform) (g : GazePoint) :
    (t.calibrated.getD false = false →
      (GazePoint.apply_calibration_transform t g).calibrated_x = some g.gaze_pos_x ∧
      (GazePoint.apply_calibration_transform t g).calibrated_y = some g.gaze_pos_y) ∧
    (t.calibrated.getD false = true → 0 ≤ t.screen_width.getD 1920 →
      0 ≤ t.screen_height.getD 1080 →
      ∃ cx cy, (GazePoint.apply_calibration_transform t g).calibrated_x = some cx ∧
        (GazePoint.apply_calibration_transform t g).calibrated_y = some cy ∧
        0 ≤ cx ∧ cx ≤ t.screen_width.getD 1920 ∧
        0 ≤ cy ∧ cy ≤ t.screen_height.getD 1080) := by
  constructor
  · intro h
    simp [GazePoint.apply_calibration_transform, h]
  · intro h hw hh
    simp only [GazePoint.apply_calibration_transform]
    rw [if_neg (by simp [h])]
    exact ⟨_, _, rfl, rfl, le_max_left _ _, max_le hw (min_le_left _ _),
      le_max_left _ _, max_le hh (min_le_left _ _)⟩

/-- The calibrated linear transform of the C7 witness. -/
def c7_transform : CalibTransform :=
  { calibrated := some true, scale_x := some 2, scale_y := some 2,
    offset_x := some 100, offset_y := some (-300),
    screen_width := some 1920, screen_height := some 1080 }

/-- A raw gaze point whose transformed coordinates fall outside the screen
on both axes (x too large, y negative), exercising the clamp. -/
def c7_point : GazePoint :=
  { timestamp := 0, gaze_valid := 1, gaze_pos_x := 5000, gaze_pos_y := 50,
    combined_3d_gaze_valid := 1, combined_3d_gaze_pos_x := 0,
    combined_3d_gaze_pos_y := 0, combined_3d_gaze_pos_z := 100,
    combined_3d_gaze_dir_x := 0, combined_3d_gaze_dir_y := 0,
    combined_3d_gaze_dir_z := -1, left_pupil_size := 3, right_pupil_size := 3,
    confidence := 9 / 10 }

/-- Witness for `C7_apply_calibration_bounds` at the concrete calibrated
transform and point. -/
theorem C7_apply_calibration_bounds_witness :
    ∃ cx cy,
      (GazePoint.apply_calibration_transform c7_transform c7_point).calibrated_x = some cx ∧
      (GazePoint.apply_calibration_transform c7_transform c7_point).calibrated_y = some cy ∧
      0 ≤ cx ∧ cx ≤ c7_transform.screen_width.getD 1920 ∧
      0 ≤ cy ∧ cy ≤ c7_transform.screen_height.getD 1080 :=
  (C7_apply_calibration_bounds c7_transform c7_point).2 (by simp [c7_transform])
    (by norm_num [c7_transform]) (by norm_num [c7_transform])

/-! ## Claim C5 — insufficient-points failure -/

/-- C5: both calibration paths fail with the insufficient-points error
exactly when fewer than 4 calibration points have been captured, and on
that failure the whole calibration state — in particular the previously
active transform — is left unchanged.  The homography path's external
solve outcome (`intr`, `hom`) is arbitrary: whatever it produces, with at
least 4 points the computation never reports insufficient points (failed
solves fall back to the linear path, which succeeds). -/
theorem C5_insufficient_points (sq : ℚ → ℚ) (now : ℚ) (intr : Option CameraIntrinsics)
    (hom : Option (List (List ℚ) × ℚ)) (st : CalibState) :
    ((calculate_calibration_transform sq now st).1.success = false ↔
      st.calibration_points.length < 4) ∧
    ((calculate_homography_calibration_transform sq now intr hom st).1.success = false ↔
      st.calibration_points.length < 4) ∧
    (st.calibration_points.length < 4 →
      (calculate_calibration_transform sq now st).2 = st ∧
      (calculate_homography_calibration_transform sq now intr hom st).2 = st ∧
      (calculate_calibration_transform sq now st).1.message =
        some ("Need at least 4 points, got " ++ toString st.calibration_points.length) ∧
      (calculate_homography_calibration_transform sq now intr hom st).1.message =
        some ("Need at least 4 points for homography, got " ++
          toString st.calibration_points.length)) := by
  by_cases hlt : st.calibration_points.length < 4
  · refine ⟨by simp [calculate_calibration_transform, hlt],
      by simp [calculate_homography_calibration_transform, hlt],
      fun _ => ⟨by simp [calculate_calibration_transform, hlt],
        by simp [calculate_homography_calibration_transform, hlt],
        by simp [calculate_calibration_transform, hlt],
        by simp [calculate_homography_calibration_transform, hlt]⟩⟩
  · have h1 : (calculate_calibration_transform sq now st).1.success = true := by
      simp [calculate_calibration_transform, hlt]
    have h2 : (calculate_homography_calibration_transform sq now intr hom st).1.success
        = true := by
      simp only [calculate_homography_calibration_transform, if_neg hlt]
      cases intr with
      | none => exact h1
      | some ci =>
        cases hom with
        | none => exact h1
        | some p => rfl
    refine ⟨?_, ?_, fun hc => absurd hc hlt⟩
    · rw [h1]
      simp [hlt]
    · rw [h2]
      simp [hlt]

/-- A three-point calibration state used to exercise the C5 failure
branch. -/
def c5_state : CalibState :=
  { calibration_points :=
      [ { point_index := 0, screen_x := 0, screen_y := 0, gaze_x := 100, gaze_y := 100,
          confidence := 1, timestamp := 0 }
      , { point_index := 1, screen_x := 1920, screen_y := 0, gaze_x := 700, gaze_y := 100,
          confidence := 1, timestamp := 1 }
      , { point_index := 2, screen_x := 0, screen_y := 1080, gaze_x := 100, gaze_y := 500,
          confidence := 1, timestamp := 2 } ]
    calibration_transform := { calibrated := some true, scale_x := some 3 } }

/-- Witness for `C5_insufficient_points`: with 3 captured points both
paths report the insufficient-points failure and the previously active
transform survives. -/
theorem C5_insufficient_points_witness :
    ((calculate_calibration_transform ratSqrt 0 c5_state).1.success = false ↔
      c5_state.calibration_points.length < 4) ∧
    (calculate_calibration_transform ratSqrt 0 c5_state).2 = c5_state ∧
    (calculate_homography_calibration_transform ratSqrt 0 none none c5_state).2 =
      c5_state := by
  have h := C5_insufficient_points ratSqrt 0 none none c5_state
  have hlt : c5_state.calibration_points.length < 4 := by simp [c5_state]
  exact ⟨h.1, (h.2.2 hlt).1, (h.2.2 hlt).2.1⟩

/-! ## Claim C6 — identity points give the identity linear transform -/

theorem axisScale_self (l : List ℚ) : axisScale l l = 1 := by
  unfold axisScale
  split
  · rename_i h
    rw [div_self (sub_ne_zero.mpr (ne_of_gt (listMin_lt_listMax h)))]
  · rfl

theorem axisOffset_self (l : List ℚ) : axisOffset l l = 0 := by
  unfold axisOffset
  split
  · rw [axisScale_self]
    ring
  · rfl

/-- C6: on at least 4 calibration points whose gaze (device) coordinates
equal their screen coordinates, the linear calibration succeeds and
produces the identity transform — scale 1 and offset 0 on each axis,
whether the axis is degenerate (all values identical) or not — with
reported accuracy 0 (every reprojection error is the square root of 0).
Only `sq 0 = 0` is assumed of the numeric square root. -/
theorem C6_identity_calibration (sq : ℚ → ℚ) (now : ℚ) (st : CalibState)
    (hsq : sq 0 = 0) (hn : 4 ≤ st.calibration_points.length)
    (hid : ∀ p ∈ st.calibration_points, p.gaze_x = p.screen_x ∧ p.gaze_y = p.screen_y) :
    (calculate_calibration_transform sq now st).1.success = true ∧
    (calculate_calibration_transform sq now st).1.accuracy_px = some 0 ∧
    (calculate_calibration_transform sq now st).1.transform = some
      { scale_x := some 1, scale_y := some 1, offset_x := some 0, offset_y := some 0,
        accuracy_px := some 0, calibrated := some true,
        points_used := some st.calibration_points.length, timestamp := some now } := by
  have hlt : ¬ st.calibration_points.length < 4 := by omega
  have hx : st.calibration_points.map (fun p => p.gaze_x) =
      st.calibration_points.map (fun p => p.screen_x) :=
    List.map_congr_left (fun p hp => (hid p hp).1)
  have hy : st.calibration_points.map (fun p => p.gaze_y) =
      st.calibration_points.map (fun p => p.screen_y) :=
    List.map_congr_left (fun p hp => (hid p hp).2)
  have herr0 : st.calibration_points.map (fun p =>
      sq ((p.gaze_x * 1 + 0 - p.screen_x) ^ 2 + (p.gaze_y * 1 + 0 - p.screen_y) ^ 2)) =
      st.calibration_points.map (fun _ => (0 : ℚ)) := by
    refine List.map_congr_left (fun p hp => ?_)
    rw [(hid p hp).1, (hid p hp).2]
    have harg : (p.screen_x * 1 + 0 - p.screen_x) ^ 2 +
        (p.screen_y * 1 + 0 - p.screen_y) ^ 2 = 0 := by ring
    rw [harg, hsq]
  have hzero : (st.calibration_points.map (fun _ => (0 : ℚ))).sum = 0 :=
    List.sum_eq_zero (by
      intro x hx'
      rcases List.mem_map.mp hx' with ⟨p, _, hp⟩
      exact hp.symm)
  simp only [calculate_calibration_transform, if_neg hlt]
  rw [hx, hy, axisScale_self, axisScale_self, axisOffset_self, axisOffset_self,
    herr0, hzero]
  simp

theorem ratSqrt_zero : ratSqrt 0 = 0 := by
  unfold ratSqrt
  norm_num

/-- The four identity calibration points of the C6 witness. -/
def c6_state : CalibState :=
  { calibration_points :=
      [ { point_index := 0, screen_x := 100, screen_y := 100, gaze_x := 100,
          gaze_y := 100, confidence := 1, timestamp := 0 }
      , { point_index := 1, screen_x := 700, screen_y := 100, gaze_x := 700,
          gaze_y := 100, confidence := 1, timestamp := 1 }
      , { point_index := 2, screen_x := 100, screen_y := 500, gaze_x := 100,
          gaze_y := 500, confidence := 1, timestamp := 2 }
      , { point_index := 3, screen_x := 700, screen_y := 500, gaze_x := 700,
          gaze_y := 500, confidence := 1, timestamp := 3 } ] }

/-- Witness for `C6_identity_calibration` on four concrete identity
point pairs. -/
theorem C6_identity_calibration_witness :
    (calculate_calibration_transform ratSqrt 7 c6_state).1.success = true ∧
    (calculate_calibration_transform ratSqrt 7 c6_state).1.accuracy_px = some 0 ∧
    (calculate_calibration_transform ratSqrt 7 c6_state).1.transform = some
      { scale_x := some 1, scale_y := some 1, offset_x := some 0, offset_y := some 0,
        accuracy_px := some 0, calibrated := some true,
        points_used := some c6_state.calibration_points.length, timestamp := some 7 } :=
  C6_identity_calibration ratSqrt 7 c6_state ratSqrt_zero (by simp [c6_state])
    (by
      intro p hp
      simp only [c6_state, List.mem_cons, List.not_mem_nil, or_false] at hp
      rcases hp with h | h | h | h <;> subst h <;> exact ⟨rfl, rfl⟩)

/-! ## Claim C1 — fixation emission -/

theorem getLast?_drop (l : List α) (i : ℕ) (h : i < l.length) :
    (l.drop i).getLast? = l.getLast? := by
  induction l generalizing i with
  | nil => simp at h
  | cons a t ih =>
    cases i with
    | zero => rfl
    | succ j =>
      simp only [List.drop_succ_cons]
      rw [ih j (by simpa using h)]
      cases t with
      | nil => simp at h
      | cons b r => exact List.getLast?_cons_cons.symm

theorem map_sum_div_length_const (l : List PGazeSample) (f : PGazeSample → ℚ) (c : ℚ)
    (hne : l ≠ []) (h : ∀ x ∈ l, f x = c) : (l.map f).sum / l.length = c := by
  have hs : (l.map f).sum = (l.map f).length * c := by
    refine sum_const _ c ?_
    intro x hx
    rcases List.mem_map.mp hx with ⟨p, hp, he⟩
    rw [← he]
    exact h p hp
  have hne' : (l.length : ℚ) ≠ 0 :=
    Nat.cast_ne_zero.mpr (Nat.pos_iff_ne_zero.mp (List.length_pos.mpr hne))
  rw [hs, List.length_map]
  field_simp

/-- C1, amended: the detector applies NO minimum-duration filter and emits
one fixation per window-start index, not one per maximal run.  For a
buffer of `n ≥ 3` samples sharing one gaze position and confidence, with
nondecreasing timestamps all within `window_ms` of the first sample,
`_detect_events` emits exactly `n - 2` fixation events — the `i`-th
spanning from the `i`-th sample's timestamp to the last sample's — with
the common position as centroid, regardless of whether the buffer's
duration reaches the 200 ms minimum (which appears nowhere in the
detector). -/
theorem C1_window_fixations (sq : ℚ → ℚ) (window_ms : ℤ) (threshold : ℚ)
    (samples : List PGazeSample) (s0 slast : PGazeSample) (cx cy conf : ℚ)
    (hsq : sq 0 = 0) (hthr : 0 ≤ threshold) (hn : 3 ≤ samples.length)
    (hhead : samples.head? = some s0) (hlast : samples.getLast? = some slast)
    (hconst : ∀ s ∈ samples, s.x = cx ∧ s.y = cy ∧ s.confidence = conf)
    (hmono : samples.Pairwise (fun a b => a.timestamp ≤ b.timestamp))
    (hspan : ∀ s ∈ samples, s.timestamp - s0.timestamp ≤ window_ms) :
    FixationDetector.detect_events sq window_ms threshold samples =
      (List.range (samples.length - 2)).map (fun i =>
        { event_type := "fixation"
          start_ts := (samples.getD i s0).timestamp
          end_ts := slast.timestamp
          duration_ms := slast.timestamp - (samples.getD i s0).timestamp
          gaze_x := cx
          gaze_y := cy
          confidence := conf
          aoi_id := none }) := by
  have hs0_le : ∀ s ∈ samples, s0.timestamp ≤ s.timestamp := by
    cases samples with
    | nil => intro s hs; simp at hs
    | cons a t =>
      have ha : a = s0 := by simpa using hhead
      subst ha
      intro s hs
      rcases List.mem_cons.mp hs with h | h
      · subst h; exact le_refl _
      · exact (List.pairwise_cons.mp hmono).1 s h
  have hlt : ¬ samples.length < 3 := by omega
  unfold FixationDetector.detect_events
  rw [if_neg hlt]
  apply filterMap_eq_map_of_some
  intro i hi
  rw [List.mem_range] at hi
  have hin : i < samples.length := by omega
  have hdrop := List.drop_eq_getElem_cons hin
  have hdropne : samples.drop i ≠ [] := by
    rw [hdrop]
    exact List.cons_ne_nil _ _
  have hsub : ∀ x ∈ samples.drop i, x ∈ samples := fun x hx => List.drop_subset i samples hx
  have hw : FixationDetector.window_samples window_ms samples i = samples.drop i := by
    unfold FixationDetector.window_samples
    rw [hdrop]
    simp only []
    rw [← hdrop]
    refine List.takeWhile_eq_self_iff.mpr ?_
    intro x hx
    have hxm : x ∈ samples := hsub x hx
    have h1 : x.timestamp - s0.timestamp ≤ window_ms := hspan x hxm
    have h2 : s0.timestamp ≤ samples[i].timestamp :=
      hs0_le _ (samples.getElem_mem hin)
    simp only [decide_eq_true_eq]
    omega
  have hlen : (samples.drop i).length = samples.length - i := samples.length_drop i
  have h3 : 3 ≤ (samples.drop i).length := by omega
  unfold FixationDetector.window_event
  rw [hw, if_pos h3]
  have hdisp : FixationDetector.calculate_dispersion sq (samples.drop i) = 0 := by
    unfold FixationDetector.calculate_dispersion
    rw [if_neg (by omega)]
    have hmapne : ∀ (f : PGazeSample → ℚ), (samples.drop i).map f ≠ [] := by
      intro f hfe
      exact hdropne (List.map_eq_nil_iff.mp hfe)
    rw [listMax_const ((samples.drop i).map (fun s => s.x)) cx (hmapne _)
          (by intro x hx; rcases List.mem_map.mp hx with ⟨p, hp, he⟩;
              rw [← he]; exact (hconst p (hsub p hp)).1),
        listMin_const ((samples.drop i).map (fun s => s.x)) cx (hmapne _)
          (by intro x hx; rcases List.mem_map.mp hx with ⟨p, hp, he⟩;
              rw [← he]; exact (hconst p (hsub p hp)).1),
        listMax_const ((samples.drop i).map (fun s => s.y)) cy (hmapne _)
          (by intro x hx; rcases List.mem_map.mp hx with ⟨p, hp, he⟩;
              rw [← he]; exact (hconst p (hsub p hp)).2.1),
        listMin_const ((samples.drop i).map (fun s => s.y)) cy (hmapne _)
          (by intro x hx; rcases List.mem_map.mp hx with ⟨p, hp, he⟩;
              rw [← he]; exact (hconst p (hsub p hp)).2.1)]
    simp [hsq]
  rw [if_pos (by rw [hdisp]; exact hthr)]
  have hlast' : (samples.drop (i + 1)).getLastD samples[i] = slast := by
    have h1 : (samples.drop i).getLast? = some slast := by
      rw [getLast?_drop samples i hin, hlast]
    rw [hdrop, List.getLast?_cons, ← List.getLastD_eq_getLast?] at h1
    exact Option.some_inj.mp h1
  have hget : samples.getD i s0 = samples[i] := samples.getD_eq_getElem s0 hin
  have hax : ((samples.drop i).map (fun p => p.x)).sum / ((samples.drop i).length : ℚ) = cx :=
    map_sum_div_length_const _ _ cx hdropne (fun x hx => (hconst x (hsub x hx)).1)
  have hay : ((samples.drop i).map (fun p => p.y)).sum / ((samples.drop i).length : ℚ) = cy :=
    map_sum_div_length_const _ _ cy hdropne (fun x hx => (hconst x (hsub x hx)).2.1)
  have hac : ((samples.drop i).map (fun p => p.confidence)).sum /
      ((samples.drop i).length : ℚ) = conf :=
    map_sum_div_length_const _ _ conf hdropne (fun x hx => (hconst x (hsub x hx)).2.2)
  rw [hdrop]
  unfold FixationDetector.create_fixation_event
  simp only []
  rw [← hdrop, hget, hlast', hax, hay, hac]

/-- The three coincident samples of the C1 counterexample, 10 ms apart
(a 20 ms run, far below the 200 ms minimum). -/
def c1_s0 : PGazeSample :=
  { timestamp := 0, x := 100, y := 100, confidence := 1, session_id := "s" }

/-- Second sample of the C1 counterexample. -/
def c1_s1 : PGazeSample :=
  { timestamp := 10, x := 100, y := 100, confidence := 1, session_id := "s" }

/-- Third sample of the C1 counterexample. -/
def c1_s2 : PGazeSample :=
  { timestamp := 20, x := 100, y := 100, confidence := 1, session_id := "s" }

/-- C1, counterexample: feeding three coincident samples spanning only
20 ms (duration far below `min_fixation_ms = 200`) through `add_sample`
already emits a fixation event on the third call — the detector enforces
no minimum fixation duration at all. -/
theorem C1_counterexample :
    (FixationDetector.add_sample ratSqrt
      (FixationDetector.add_sample ratSqrt
        (FixationDetector.add_sample ratSqrt {} c1_s0).1 c1_s1).1 c1_s2).2 =
      [{ event_type := "fixation", start_ts := 0, end_ts := 20, duration_ms := 20,
         gaze_x := 100, gaze_y := 100, confidence := 1, aoi_id := none }] ∧
    (20 : ℤ) < 200 := by
  constructor
  · norm_num [FixationDetector.add_sample, FixationDetector.detect_events,
      FixationDetector.window_event, FixationDetector.window_samples,
      FixationDetector.calculate_dispersion, FixationDetector.create_fixation_event,
      c1_s0, c1_s1, c1_s2, listMax, listMin, List.range_succ, ratSqrt_zero,
      List.takeWhile, List.filterMap_cons, List.filterMap_nil]
  · norm_num

/-- Witness for `C1_window_fixations` on the concrete 20 ms three-sample
buffer: exactly `3 - 2 = 1` fixation event spanning 0–20 ms. -/
theorem C1_window_fixations_witness :
    FixationDetector.detect_events ratSqrt 100 1 [c1_s0, c1_s1, c1_s2] =
      (List.range ([c1_s0, c1_s1, c1_s2].length - 2)).map (fun i =>
        { event_type := "fixation"
          start_ts := ([c1_s0, c1_s1, c1_s2].getD i c1_s0).timestamp
          end_ts := c1_s2.timestamp
          duration_ms := c1_s2.timestamp - ([c1_s0, c1_s1, c1_s2].getD i c1_s0).timestamp
          gaze_x := 100
          gaze_y := 100
          confidence := 1
          aoi_id := none }) :=
  C1_window_fixations ratSqrt 100 1 [c1_s0, c1_s1, c1_s2] c1_s0 c1_s2 100 100 1
    ratSqrt_zero (by norm_num) (by simp) rfl rfl
    (by
      intro s hs
      simp only [List.mem_cons, List.not_mem_nil, or_false] at hs
      rcases hs with h | h | h <;> subst h <;> exact ⟨rfl, rfl, rfl⟩)
    (by
      refine List.pairwise_cons.mpr ⟨?_, List.pairwise_cons.mpr ⟨?_, ?_⟩⟩
      · intro s hs
        simp only [List.mem_cons, List.not_mem_nil, or_false] at hs
        rcases hs with h | h <;> subst h <;> norm_num [c1_s0, c1_s1, c1_s2]
      · intro s hs
        simp only [List.mem_singleton] at hs
        subst hs
        norm_num [c1_s1, c1_s2]
      · simp)
    (by
      intro s hs
      simp only [List.mem_cons, List.not_mem_nil, or_false] at hs
      rcases hs with h | h | h <;> subst h <;> norm_num [c1_s0, c1_s1, c1_s2])

/-! ## Claim C2 — rule-engine rate limiting -/

theorem foldl_feedback_update (sid : String) (now : ℤ) :
    ∀ (cmds : List FeedbackCommand) (states : List (String × SessionState))
      (s : SessionState), dictGet states sid = some s → cmds ≠ [] →
      ∃ st', dictGet
        (cmds.foldl (AdaptationEngine.feedback_state_update sid now) states) sid =
          some st' ∧ st'.last_feedback_time = now := by
  intro cmds
  induction cmds with
  | nil => intro states s _ hne; exact absurd rfl hne
  | cons c rest ih =>
    intro states s hget _
    rw [List.foldl_cons]
    have hstep : AdaptationEngine.feedback_state_update sid now states c =
        dictInsert states sid
          { s with last_feedback_time := now, feedback_count := s.feedback_count + 1 } := by
      unfold AdaptationEngine.feedback_state_update
      rw [hget]
    cases rest with
    | nil =>
      rw [List.foldl_nil, hstep]
      exact ⟨_, dictGet_dictInsert_self states sid _, rfl⟩
    | cons c2 r2 =>
      rw [hstep]
      exact ih _ _ (dictGet_dictInsert_self states sid _) (List.cons_ne_nil c2 r2)

/-- The registered engine of the C2 counterexample: the default rule
table and one session `"s"` freshly registered
(`last_feedback_time = 0`). -/
def c2_engine : AdaptationEngine := { session_states := [("s", {})] }

/-- A single fixation event on the difficult vocabulary AOI
`"sophisticated"` lasting 3500 ms — long enough to satisfy all three
default rules at once. -/
def c2_event : EventData :=
  { session_id := some "s", event_type := some "fixation", duration_ms := 3500,
    aoi_id := some "sophisticated" }

/-- C2, counterexample: one qualifying event emits THREE feedback
commands in a single `process_event` call (10 s into the session, well
past the rate-limit window): every matching rule appends its command —
the earlier rule does not win, and more than one command is emitted for
the same instant of session time. -/
theorem C2_counterexample :
    ((c2_engine.process_event c2_event 10000).1.map (fun c => c.type)) =
      ["vocabularyCard", "grammarPopup", "showHint"] ∧
    ((c2_engine.process_event c2_event 10000).1.length = 3) := by
  constructor <;>
    decide

/-- C2, amended: the rate limit suppresses whole calls, not commands: for
a registered session, a call strictly within 5000 ms of the session's
`last_feedback_time` emits nothing and leaves the engine unchanged; a
call at 5000 ms or more emits one command per matching rule in table
order (possibly several for a single event, see the counterexample), and
any nonempty emission resets the session's `last_feedback_time` to the
current call time.  Unregistered sessions are not rate limited at all. -/
theorem C2_rate_limit_per_call (eng : AdaptationEngine) (e : EventData) (now : ℤ)
    (sid : String) (st : SessionState) (hsid : e.session_id = some sid)
    (hne : ¬ sid = "") (hreg : dictGet eng.session_states sid = some st) :
    (now - st.last_feedback_time < 5000 → eng.process_event e now = ([], eng)) ∧
    (5000 ≤ now - st.last_feedback_time →
      (eng.process_event e now).1 =
        eng.rules.filterMap (AdaptationEngine.rule_command e sid now) ∧
      ((eng.process_event e now).1 ≠ [] →
        ∃ st', dictGet (eng.process_event e now).2.session_states sid = some st' ∧
          st'.last_feedback_time = now)) := by
  unfold AdaptationEngine.process_event
  rw [hsid]
  simp only [if_neg hne, hreg]
  constructor
  · intro h
    rw [if_pos h]
  · intro h
    rw [if_neg (not_lt.mpr h)]
    refine ⟨rfl, fun hcne => ?_⟩
    exact foldl_feedback_update sid now _ _ _
      (dictGet_dictInsert_self eng.session_states sid _) hcne

/-- Witness for `C2_rate_limit_per_call` at the counterexample engine,
event and call time. -/
theorem C2_rate_limit_per_call_witness :
    ((10000 : ℤ) - (({} : SessionState)).last_feedback_time < 5000 →
      c2_engine.process_event c2_event 10000 = ([], c2_engine)) ∧
    ((5000 : ℤ) ≤ 10000 - (({} : SessionState)).last_feedback_time →
      (c2_engine.process_event c2_event 10000).1 =
        c2_engine.rules.filterMap
          (AdaptationEngine.rule_command c2_event "s" 10000) ∧
      ((c2_engine.process_event c2_event 10000).1 ≠ [] →
        ∃ st', dictGet (c2_engine.process_event c2_event 10000).2.session_states "s" =
            some st' ∧ st'.last_feedback_time = 10000)) :=
  C2_rate_limit_per_call c2_engine c2_event 10000 "s" {} rfl (by decide) (by decide)

/-! ## Claim C10 — bounded live buffers -/

theorem update_cognitive_load_buffers (sq : ℚ → ℚ) (now : ℚ) (st : GazeManagerState) :
    (update_cognitive_load sq now st).gaze_trail = st.gaze_trail ∧
    (update_cognitive_load sq now st).recent_hits = st.recent_hits := by
  unfold update_cognitive_load
  split
  · exact ⟨rfl, rfl⟩
  · dsimp only
    split <;> exact ⟨rfl, rfl⟩

theorem cognitive_step_buffers (sq : ℚ → ℚ) (now : ℚ) (st1 : GazeManagerState) :
    (cognitive_step sq now st1).gaze_trail = st1.gaze_trail ∧
    (cognitive_step sq now st1).recent_hits = st1.recent_hits := by
  unfold cognitive_step
  split
  · exact update_cognitive_load_buffers sq now st1
  · exact ⟨rfl, rfl⟩

theorem process_aoi_hits_shape (now : ℚ) (st : GazeManagerState) (g : GazePoint) :
    (process_aoi_hits now st g).gaze_trail = st.gaze_trail ∧
    ((process_aoi_hits now st g).recent_hits = st.recent_hits ∨
      ∃ h, (process_aoi_hits now st g).recent_hits = pushBounded st.recent_hits h 10) := by
  unfold process_aoi_hits
  dsimp only
  split
  · split
    · split
      · exact ⟨rfl, Or.inr ⟨_, rfl⟩⟩
      · split
        · exact ⟨rfl, Or.inr ⟨_, rfl⟩⟩
        · exact ⟨rfl, Or.inr ⟨_, rfl⟩⟩
    · exact ⟨rfl, Or.inr ⟨_, rfl⟩⟩
  all_goals exact ⟨rfl, Or.inl rfl⟩

/-- C10: processing one gaze sample preserves the bounds on the live
buffers: starting from a state whose trail holds at most 20 points and
whose recent-hits list holds at most 10 entries, the state after
`_process_gaze_sample_from_sdk` still satisfies both bounds; when the
trail is full the oldest point is evicted and the calibrated new point is
appended at the end, and the recent-hits list either stays unchanged or
receives one bounded (oldest-evicted-first) push. -/
theorem C10_live_buffers_bounded (sq : ℚ → ℚ) (now : ℚ) (st : GazeManagerState)
    (g0 : GazePoint) (h20 : st.gaze_trail.length ≤ 20)
    (h10 : st.recent_hits.length ≤ 10) :
    (process_gaze_sample sq now st g0).gaze_trail.length ≤ 20 ∧
    (process_gaze_sample sq now st g0).recent_hits.length ≤ 10 ∧
    (st.gaze_trail.length = 20 →
      (process_gaze_sample sq now st g0).gaze_trail =
        st.gaze_trail.drop 1 ++
          [GazePoint.apply_calibration_transform st.calibration_transform g0]) ∧
    ((process_gaze_sample sq now st g0).recent_hits = st.recent_hits ∨
      ∃ h, (process_gaze_sample sq now st g0).recent_hits =
        pushBounded st.recent_hits h 10) := by
  have heq : process_gaze_sample sq now st g0 =
      (if (GazePoint.apply_calibration_transform st.calibration_transform g0).is_valid
       then process_aoi_hits now (cognitive_step sq now
          { st with
              current_gaze :=
                some (GazePoint.apply_calibration_transform st.calibration_transform g0)
              gaze_trail := pushBounded st.gaze_trail
                (GazePoint.apply_calibration_transform st.calibration_transform g0) 20
              total_samples := st.total_samples + 1 })
          (GazePoint.apply_calibration_transform st.calibration_transform g0)
       else cognitive_step sq now
          { st with
              current_gaze :=
                some (GazePoint.apply_calibration_transform st.calibration_transform g0)
              gaze_trail := pushBounded st.gaze_trail
                (GazePoint.apply_calibration_transform st.calibration_transform g0) 20
              total_samples := st.total_samples + 1 }) := rfl
  rw [heq]
  obtain ⟨h2t, h2h⟩ := cognitive_step_buffers sq now
    { st with
        current_gaze :=
          some (GazePoint.apply_calibration_transform st.calibration_transform g0)
        gaze_trail := pushBounded st.gaze_trail
          (GazePoint.apply_calibration_transform st.calibration_transform g0) 20
        total_samples := st.total_samples + 1 }
  split
  · obtain ⟨h3t, h3h⟩ := process_aoi_hits_shape now (cognitive_step sq now
      { st with
          current_gaze :=
            some (GazePoint.apply_calibration_transform st.calibration_transform g0)
          gaze_trail := pushBounded st.gaze_trail
            (GazePoint.apply_calibration_transform st.calibration_transform g0) 20
          total_samples := st.total_samples + 1 })
      (GazePoint.apply_calibration_transform st.calibration_transform g0)
    refine ⟨?_, ?_, ?_, ?_⟩
    · rw [h3t, h2t]
      exact pushBounded_length_le _ _ _ h20
    · rcases h3h with h | ⟨h', hh⟩
      · rw [h, h2h]
        exact h10
      · rw [hh, h2h]
        exact pushBounded_length_le _ _ _ h10
    · intro hfull
      rw [h3t, h2t]
      exact pushBounded_full _ _ _ hfull (by norm_num)
    · rcases h3h with h | ⟨h', hh⟩
      · left
        rw [h, h2h]
      · right
        exact ⟨h', by rw [hh, h2h]⟩
  · refine ⟨?_, ?_, ?_, ?_⟩
    · rw [h2t]
      exact pushBounded_length_le _ _ _ h20
    · rw [h2h]
      exact h10
    · intro hfull
      rw [h2t]
      exact pushBounded_full _ _ _ hfull (by norm_num)
    · left
      rw [h2h]

/-- Witness for `C10_live_buffers_bounded` at the empty manager state and
a concrete valid gaze point. -/
theorem C10_live_buffers_bounded_witness :
    (process_gaze_sample ratSqrt 0 {} c7_point).gaze_trail.length ≤ 20 ∧
    (process_gaze_sample ratSqrt 0 {} c7_point).recent_hits.length ≤ 10 ∧
    (({} : GazeManagerState).gaze_trail.length = 20 →
      (process_gaze_sample ratSqrt 0 {} c7_point).gaze_trail =
        ({} : GazeManagerState).gaze_trail.drop 1 ++
          [GazePoint.apply_calibration_transform
            ({} : GazeManagerState).calibration_transform c7_point]) ∧
    ((process_gaze_sample ratSqrt 0 {} c7_point).recent_hits =
        ({} : GazeManagerState).recent_hits ∨
      ∃ h, (process_gaze_sample ratSqrt 0 {} c7_point).recent_hits =
        pushBounded ({} : GazeManagerState).recent_hits h 10) :=
  C10_live_buffers_bounded ratSqrt 0 {} c7_point (by simp) (by simp)

end GanzinBackend
